import Mathlib

/-!
Shallow embedding of the voxel-game core in `src/3d-game/main.js`:
block store, collision and ground-height queries, the per-tick player
kinetic controller, mining/building, the void-trap mechanic, and the
guardian-monster aggro state machine.

Coordinates are modelled as rationals.  JavaScript `Math.sqrt` distance
comparisons against constant thresholds are embedded as comparisons of
squared distances (the square root is strictly monotone on nonnegative
reals, so `sqrt d < t` iff `d < t^2` for `t ≥ 0`, and likewise for the
other comparison operators used by the code).  The camera yaw enters the
code only through `sin`/`cos` of the angle, so the embedding takes the
pair `(s, c) = (sin θ, cos θ)` as parameters; the shifted angles in the
source are rewritten with the exact identities `sin (θ - π/2) = -cos θ`,
`cos (θ - π/2) = sin θ`, `sin (θ + π/2) = cos θ`, `cos (θ + π/2) = -sin θ`.
-/

namespace BlockGame

/-- A 3-vector of rational coordinates (positions and velocities). -/
structure V3 where
  x : ℚ
  y : ℚ
  z : ℚ
deriving DecidableEq, Repr

/-- The player's axis-aligned collision box, relative to its position
(`playerBody` in `main.js`). -/
structure Body where
  minX : ℚ
  maxX : ℚ
  minY : ℚ
  maxY : ℚ
  minZ : ℚ
  maxZ : ℚ
deriving DecidableEq, Repr

/-- One block record: the `userData` fields of a world block mesh together
with its mesh position (`block.position`) and visibility flag.
`worldLayer` is `none` for player-placed blocks, whose `userData` carries
no `worldLayer` field (JS `undefined`). -/
structure BlockData where
  isBlock : Bool
  isVoid : Bool
  visible : Bool
  minX : ℚ
  maxX : ℚ
  minY : ℚ
  maxY : ℚ
  minZ : ℚ
  maxZ : ℚ
  worldLayer : Option ℚ
  isPlaced : Bool
  posX : ℚ
  posY : ℚ
  posZ : ℚ
deriving DecidableEq, Repr

/-- `FALL_THROUGH_HEIGHT = 2` (main.js line 35): above this Y an actor is
in the blue-sky band. -/
def FALL_THROUGH_HEIGHT : ℚ := 2

/-- `isInBlueSky(y)` (lines 1818-1826): true iff `y > FALL_THROUGH_HEIGHT`.
(The occasional `console.log` has no state effect.) -/
def isInBlueSky (y : ℚ) : Bool :=
  decide (FALL_THROUGH_HEIGHT < y)

/-- The player-box vs block AABB strict-overlap test used by
`checkCollision` and `checkIfPlayerInVoid` (lines 1709-1714, 1583-1588). -/
def overlapsBox (body : Body) (px py pz : ℚ) (b : BlockData) : Bool :=
  decide (px + body.maxX > b.minX) && decide (px + body.minX < b.maxX) &&
  decide (py + body.maxY > b.minY) && decide (py + body.minY < b.maxY) &&
  decide (pz + body.maxZ > b.minZ) && decide (pz + body.minZ < b.maxZ)

/-- The horizontal (X/Z only) player-box vs block overlap test used by the
ground-height queries (lines 1851-1854, 1890-1893). -/
def overXZ (body : Body) (px pz : ℚ) (b : BlockData) : Bool :=
  decide (px + body.minX < b.maxX) && decide (px + body.maxX > b.minX) &&
  decide (pz + body.minZ < b.maxZ) && decide (pz + body.maxZ > b.minZ)

/-- Insertion into a descending-sorted list (used to model the JS
`[...worldLayers].sort((a, b) => b - a)`). -/
def insertDesc (x : ℚ) : List ℚ → List ℚ
  | [] => [x]
  | y :: t => if x ≥ y then x :: y :: t else y :: insertDesc x t

/-- Descending sort of the layer list. -/
def sortDesc (l : List ℚ) : List ℚ :=
  l.foldr insertDesc []

/-- `getNextWorldLayerBelow(currentY)` (lines 1806-1816): sort layers
descending, return the first strictly below `currentY`, else the lowest
layer.  The `0` default only covers the empty layer list, where the JS
indexing would yield `undefined`. -/
def getNextWorldLayerBelow (layers : List ℚ) (currentY : ℚ) : ℚ :=
  let sorted := sortDesc layers
  match sorted.find? (fun layerY => decide (layerY < currentY)) with
  | some l => l
  | none => sorted.getLastD 0

/-- Eligibility filter shared by `checkCollision` and `getGroundHeight`
(lines 1701-1706, 1843-1848): a real, unbroken, visible block whose top
does not reach into the blue-sky band. -/
def collidableBlock (b : BlockData) : Bool :=
  b.isBlock && !b.isVoid && b.visible && decide (b.maxY ≤ FALL_THROUGH_HEIGHT)

/-- `checkCollision(newX, newY, newZ)` (lines 1682-1720): `none` in the
blue-sky band, otherwise the first eligible block overlapping the player
box placed at the queried position. -/
def checkCollision (blocks : List BlockData) (body : Body) (x y z : ℚ) :
    Option BlockData :=
  if isInBlueSky y then none
  else blocks.find? (fun b => collidableBlock b && overlapsBox body x y z b)

/-- `maxStepHeight = 0.5`, the step tolerance used in `getGroundHeight`
and `updatePlayer` (lines 1837, 2416). -/
def maxStepHeight : ℚ := 1 / 2

/-- One step of the `getGroundHeight` accumulation loop (lines 1839-1874). -/
def groundStep (body : Body) (x z currentY : ℚ) (allowStepUp : Bool)
    (maxHeight : Option ℚ) (b : BlockData) : Option ℚ :=
  if collidableBlock b && overXZ body x z b then
    let playerBottom := currentY + body.minY
    let blockTop := b.maxY
    if blockTop ≤ playerBottom then
      match maxHeight with
      | none => some blockTop
      | some m => if blockTop > m then some blockTop else some m
    else if allowStepUp ∧ blockTop ≤ playerBottom + maxStepHeight then
      match maxHeight with
      | none => some blockTop
      | some m => if blockTop > m then some blockTop else some m
    else maxHeight
  else maxHeight

/-- `getGroundHeight(x, z, currentY, allowStepUp)` (lines 1828-1878):
`none` in the blue-sky band, otherwise the highest eligible block top at
or below the player bottom (or within the step tolerance when
`allowStepUp`), or `none` when no such block exists. -/
def getGroundHeight (blocks : List BlockData) (body : Body)
    (x z currentY : ℚ) (allowStepUp : Bool) : Option ℚ :=
  if isInBlueSky currentY then none
  else blocks.foldl (groundStep body x z currentY allowStepUp) none

/-- One step of the `getGroundHeightOnLayer` loop (lines 1884-1900).
A block participates when it is real, unbroken and visible and its
`worldLayer` is the queried layer or absent; there is no blue-sky height
filter here. -/
def layerStep (body : Body) (x z layerY : ℚ) (maxHeight : ℚ)
    (b : BlockData) : ℚ :=
  if (b.isBlock && !b.isVoid && b.visible)
      && (decide (b.worldLayer = some layerY) || decide (b.worldLayer = none))
      && overXZ body x z b then
    if b.maxY > maxHeight then b.maxY else maxHeight
  else maxHeight

/-- `getGroundHeightOnLayer(x, z, layerY)` (lines 1880-1903): highest
participating block top at (x, z), defaulting to the layer height. -/
def getGroundHeightOnLayer (blocks : List BlockData) (body : Body)
    (x z layerY : ℚ) : ℚ :=
  blocks.foldl (layerStep body x z layerY) layerY

/-- `checkIfPlayerInVoid()` (lines 1565-1594): the player box overlaps
some visible void block.  Note no `isBlock` requirement. -/
def checkIfPlayerInVoid (blocks : List BlockData) (body : Body) (pos : V3) :
    Bool :=
  blocks.any (fun b => b.isVoid && b.visible && overlapsBox body pos.x pos.y pos.z b)

/-- `breakBlock(block)` (lines 1041-1070): a no-op unless the block is a
real block; otherwise flip it to the void state.  Material changes are
presentation only. -/
def breakBlock (b : BlockData) : BlockData :=
  if !b.isBlock then b
  else { b with isBlock := false, isVoid := true }

/-- Breaking the block at index `i` of the world list: the list itself is
never shrunk, only the block record is rewritten in place. -/
def worldBreak (w : List BlockData) (i : ℕ) : List BlockData :=
  match w.get? i with
  | some b => w.set i (breakBlock b)
  | none => w

/-- The block record created by `placeBlock(x, y, z)` (lines 1269-1300):
a unit wooden block tagged `isPlaced`, with no `worldLayer` field. -/
def mkPlacedBlock (x y z : ℚ) : BlockData :=
  { isBlock := true, isVoid := false, visible := true,
    minX := x - 1/2, maxX := x + 1/2,
    minY := y - 1/2, maxY := y + 1/2,
    minZ := z - 1/2, maxZ := z + 1/2,
    worldLayer := none, isPlaced := true,
    posX := x, posY := y, posZ := z }

/-- The occupancy test of `tryPlaceBlock` (lines 1246-1257): a grid cell
counts as occupied when some visible non-void block's mesh position is
within 0.1 of it on every axis. -/
def cellOccupied (blocks : List BlockData) (cx cy cz : ℚ) : Bool :=
  blocks.any (fun b => (b.visible && !b.isVoid) &&
    decide (|b.posX - cx| < 1/10) && decide (|b.posY - cy| < 1/10) &&
    decide (|b.posZ - cz| < 1/10))

/-- `placeBlock(x, y, z)` world effect (lines 1269-1300): refuse without
wood, otherwise append the new placed block and spend one wood. -/
def placeBlock (blocks : List BlockData) (wood : ℤ) (x y z : ℚ) :
    List BlockData × ℤ :=
  if wood < 1 then (blocks, wood)
  else (blocks ++ [mkPlacedBlock x y z], wood - 1)

/-- Point-in-block containment used by the mining ray march
(lines 966-968). -/
def containsPoint (b : BlockData) (x y z : ℚ) : Bool :=
  decide (b.minX ≤ x) && decide (x ≤ b.maxX) &&
  decide (b.minY ≤ y) && decide (y ≤ b.maxY) &&
  decide (b.minZ ≤ z) && decide (z ≤ b.maxZ)

/-- Mining eligibility (lines 957-963): real, unbroken, visible. -/
def mineable (b : BlockData) : Bool :=
  b.isBlock && !b.isVoid && b.visible

/-- Squared 3-D distance; stands in for the `Math.sqrt` distance of the
source wherever only comparisons occur. -/
def distSq3 (ax ay az bx bY bz : ℚ) : ℚ :=
  (ax - bx)^2 + (ay - bY)^2 + (az - bz)^2

/-- One block of the inner loop of `getTargetBlock` at one march point
(lines 956-986): keep the mineable block containing the point whose
center is closest to the ray origin (strictly-closer updates, as in the
source). -/
def mineStep (sx sy sz cx cy cz : ℚ) (best : Option (BlockData × ℚ))
    (b : BlockData) : Option (BlockData × ℚ) :=
  if mineable b && containsPoint b cx cy cz then
    let d := distSq3 sx sy sz ((b.minX + b.maxX) / 2) ((b.minY + b.maxY) / 2)
      ((b.minZ + b.maxZ) / 2)
    match best with
    | none => some (b, d)
    | some (bb, bd) => if d < bd then some (b, d) else some (bb, bd)
  else best

/-- The inner loop of `getTargetBlock` at one march point. -/
def closestAtPoint (blocks : List BlockData) (sx sy sz cx cy cz : ℚ) :
    Option BlockData :=
  (blocks.foldl (mineStep sx sy sz cx cy cz) none).map Prod.fst

/-- The march distances of `getTargetBlock` (lines 939-948):
`step * 0.5` for `step = 1 .. ceil(range / 0.5)`, stopping past `range`. -/
def marchDistances (range : ℚ) : List ℚ :=
  ((List.range (Int.toNat ⌈range * 2⌉)).map (fun i => ((i : ℚ) + 1) / 2)).filter
    (fun d => decide (d ≤ range))

/-- The step loop of `getTargetBlock`: the scan stops at the first march
point that hits any block (the `if (closestBlock) break`). -/
def rayScan (blocks : List BlockData) (sx sy sz dx dy dz : ℚ) :
    List ℚ → Option BlockData
  | [] => none
  | d :: rest =>
    match closestAtPoint blocks sx sy sz (sx + dx * d) (sy + dy * d) (sz + dz * d) with
    | some b => some b
    | none => rayScan blocks sx sy sz dx dy dz rest

/-- `getTargetBlock()` (lines 926-993), parameterized by the ray origin,
the camera direction, and the pickaxe range. -/
def getTargetBlock (blocks : List BlockData) (sx sy sz dx dy dz range : ℚ) :
    Option BlockData :=
  rayScan blocks sx sy sz dx dy dz (marchDistances range)

/-- The player fields read and written by the kinetic controller
(`playerState`, lines 38-64).  Presentation-only fields are omitted. -/
structure PlayerState where
  position : V3
  velocity : V3
  isOnGround : Bool
  isStuckInVoid : Bool
  hasVoidEscapePowerup : Bool
  moveSpeed : ℚ
  jumpPower : ℚ
  gravity : ℚ
deriving DecidableEq, Repr

/-- The polled movement key state.  Each field collapses the JS key-name
aliases for one logical direction (lines 2289-2293, 2312-2319). -/
structure Keys where
  up : Bool
  down : Bool
  left : Bool
  right : Bool
  shift : Bool
deriving DecidableEq, Repr

/-- The directional-input test of the void-escape branch (line 2295):
any direction or shift. -/
def anyMoveKey (keys : Keys) : Bool :=
  keys.up || keys.down || keys.left || keys.right || keys.shift

/-- Horizontal velocity accumulation from the movement keys
(lines 2314-2338): skipped entirely while shift is held; each held
direction adds a camera-relative push of magnitude `moveSpeed`.
`(s, c)` is `(sin cameraAngle, cos cameraAngle)`; the left/right
directions use `sin (θ ∓ π/2)` and `cos (θ ∓ π/2)` rewritten by the
exact shift identities. -/
def horizInput (keys : Keys) (s c ms vx vz : ℚ) : ℚ × ℚ :=
  if keys.shift then (vx, vz)
  else
    let vx := if keys.up then vx - s * ms else vx
    let vz := if keys.up then vz - c * ms else vz
    let vx := if keys.down then vx + s * ms else vx
    let vz := if keys.down then vz + c * ms else vz
    let vx := if keys.left then vx + (-c) * ms else vx
    let vz := if keys.left then vz + s * ms else vz
    let vx := if keys.right then vx + c * ms else vx
    let vz := if keys.right then vz + (-s) * ms else vz
    (vx, vz)

/-- Input accumulation followed by the unconditional `* 0.9` friction
(lines 2353-2354). -/
def frictionVel (keys : Keys) (s c : ℚ) (p : PlayerState) : ℚ × ℚ :=
  let iv := horizInput keys s c p.moveSpeed p.velocity.x p.velocity.z
  (iv.1 * (9/10), iv.2 * (9/10))

/-- Gravity application (lines 2356-2359): applied when in the blue sky
or airborne. -/
def tickVy (p : PlayerState) : ℚ :=
  if isInBlueSky p.position.y || !p.isOnGround then p.velocity.y + p.gravity
  else p.velocity.y

/-- One horizontal axis of the collision response (lines 2421-2465):
blocked when the obstruction rises past the step tolerance into the
player, ignored when it is a ceiling or a steppable ledge, blocked
otherwise.  Returns the resolved coordinate and velocity. -/
def axisResolve (pcur pnew v playerBottom playerTop : ℚ)
    (col : Option BlockData) : ℚ × ℚ :=
  match col with
  | none => (pnew, v)
  | some b =>
    if b.maxY > playerBottom + maxStepHeight ∧ b.minY < playerTop then (pcur, 0)
    else if b.minY > playerTop then (pnew, v)
    else if b.maxY ≤ playerBottom + maxStepHeight ∧ b.minY ≤ playerBottom then (pnew, v)
    else (pcur, 0)

/-- The proposed horizontal destination of a tick and the corresponding
velocities: input, friction, then the X- and Z-axis collision passes of
`updatePlayer` (lines 2314-2465).  Result: `((newX, newZ), (vx, vz))`. -/
def proposedDest (blocks : List BlockData) (body : Body) (keys : Keys)
    (s c : ℚ) (p : PlayerState) : (ℚ × ℚ) × (ℚ × ℚ) :=
  let fv := frictionVel keys s c p
  let playerBottom := p.position.y + body.minY
  let playerTop := playerBottom + (body.maxY - body.minY)
  let rx := axisResolve p.position.x (p.position.x + fv.1) fv.1 playerBottom playerTop
    (checkCollision blocks body (p.position.x + fv.1) p.position.y p.position.z)
  let rz := axisResolve p.position.z (p.position.z + fv.2) fv.2 playerBottom playerTop
    (checkCollision blocks body p.position.x p.position.y (p.position.z + fv.2))
  ((rx.1, rz.1), (rx.2, rz.2))

/-- The blue-sky branch of `updatePlayer` (lines 2367-2412): no block
collision, just fall until close enough to the next lower layer's ground,
then land 0.1 above it with zero vertical velocity. -/
def skyBranch (blocks : List BlockData) (layers : List ℚ) (body : Body)
    (p : PlayerState) (vx vy vz newX newY newZ : ℚ) : PlayerState :=
  if newY < getNextWorldLayerBelow layers newY + 10 ∧
      newY ≤ getGroundHeightOnLayer blocks body newX newZ
        (getNextWorldLayerBelow layers newY) + 1 then
    { p with position := ⟨newX,
               getGroundHeightOnLayer blocks body newX newZ
                 (getNextWorldLayerBelow layers newY) - body.minY + 1/10, newZ⟩,
             velocity := ⟨vx, 0, vz⟩, isOnGround := true }
  else
    { p with position := ⟨newX, newY, newZ⟩,
             velocity := ⟨vx, vy, vz⟩, isOnGround := false }

/-- The non-sky part of the movement pipeline (lines 2415-2578): per-axis
collision, the anti-step-up ground comparison, Y collision, and ground
resolution, ending in the position commit. -/
def movePhaseGround (blocks : List BlockData) (body : Body)
    (keys : Keys) (s c : ℚ) (p : PlayerState) : PlayerState :=
    let vy := tickVy p
    let newY := p.position.y + vy
    let pd := proposedDest blocks body keys s c p
    let newX := pd.1.1
    let newZ := pd.1.2
    let vx := pd.2.1
    let vz := pd.2.2
    -- anti-exploit ground comparison (lines 2467-2490)
    let ae : (ℚ × ℚ) × (ℚ × ℚ) :=
      if !isInBlueSky p.position.y ∧ !isInBlueSky newY then
        match getGroundHeight blocks body newX newZ p.position.y false,
              getGroundHeight blocks body p.position.x p.position.z p.position.y false with
        | some destH, some curH =>
          if p.isOnGround ∧ |vy| < 1/100 then
            if destH > curH + 1/100 then ((p.position.x, p.position.z), (0, 0))
            else ((newX, newZ), (vx, vz))
          else ((newX, newZ), (vx, vz))
        | _, _ => ((newX, newZ), (vx, vz))
      else ((newX, newZ), (vx, vz))
    let newX := ae.1.1
    let newZ := ae.1.2
    let vx := ae.2.1
    let vz := ae.2.2
    -- Y collision (lines 2493-2521)
    let yc : (ℚ × ℚ × ℚ) × (ℚ × ℚ × ℚ) × Bool :=
      match checkCollision blocks body newX newY newZ with
      | none => ((newX, newY, newZ), (vx, vy, vz), p.isOnGround)
      | some b =>
        if vy > 0 then ((newX, p.position.y, newZ), (vx, 0, vz), p.isOnGround)
        else if vy < 0 then
          ((newX, b.maxY - body.minY + 1/100, newZ), (vx, 0, vz), true)
        else if vy = 0 ∧ |vx| + |vz| > 0 then
          if b.maxY > (newY + body.minY) + 1/2 then
            ((p.position.x, newY, p.position.z), (0, vy, 0), p.isOnGround)
          else ((newX, newY, newZ), (vx, vy, vz), p.isOnGround)
        else ((newX, newY, newZ), (vx, vy, vz), p.isOnGround)
    let newX := yc.1.1
    let newY := yc.1.2.1
    let newZ := yc.1.2.2
    let vx := yc.2.1.1
    let vy := yc.2.1.2.1
    let vz := yc.2.1.2.2
    let ground := yc.2.2
    -- ground resolution (lines 2523-2562)
    let gr : (ℚ × ℚ) × Bool :=
      match getGroundHeight blocks body newX newZ p.position.y false with
      | none => ((newY, vy), false)
      | some g =>
        if vy ≤ 0 ∧ newY + body.minY ≤ g + 1/10 then
          let hd := g - (p.position.y + body.minY)
          if vy < 0 then ((g - body.minY + 1/10, 0), true)
          else if |hd| < 1/10 ∧ ground then ((g - body.minY + 1/10, 0), true)
          else if hd > 0 then ((newY, vy), false)
          else ((newY, vy), ground)
        else ((newY, vy), false)
    { p with position := ⟨newX, gr.1.1, newZ⟩,
             velocity := ⟨vx, gr.1.2, vz⟩, isOnGround := gr.2 }

/-- The movement pipeline of `updatePlayer` after the void-trap phase
(lines 2304-2578): input and friction, gravity, then either the sky-band
shortcut or the grounded collision pipeline.  Camera placement is
presentation only and omitted. -/
def movePhase (blocks : List BlockData) (layers : List ℚ) (body : Body)
    (keys : Keys) (s c : ℚ) (p : PlayerState) : PlayerState :=
  if isInBlueSky p.position.y || isInBlueSky (p.position.y + tickVy p) then
    skyBranch blocks layers body p (frictionVel keys s c p).1 (tickVy p)
      (frictionVel keys s c p).2 (p.position.x + (frictionVel keys s c p).1)
      (p.position.y + tickVy p) (p.position.z + (frictionVel keys s c p).2)
  else movePhaseGround blocks body keys s c p

/-- `updatePlayer()` (lines 2272-2579): the void-trap phase (status
refresh, the no-charge freeze, the charge-consuming escape) followed by
the movement pipeline. -/
def updatePlayer (blocks : List BlockData) (layers : List ℚ) (body : Body)
    (keys : Keys) (s c : ℚ) (p : PlayerState) : PlayerState :=
  let p0 : PlayerState :=
    { p with isStuckInVoid := checkIfPlayerInVoid blocks body p.position }
  if p0.isStuckInVoid ∧ ¬p0.hasVoidEscapePowerup then
    { p0 with velocity := ⟨0, 0, 0⟩ }
  else
    let p1 := if p0.isStuckInVoid ∧ p0.hasVoidEscapePowerup ∧ anyMoveKey keys then
        { p0 with hasVoidEscapePowerup := false, isStuckInVoid := false }
      else p0
    movePhase blocks layers body keys s c p1

/-- The four directional jump keys plus the unrecognized case. -/
inductive JumpKey where
  | up
  | down
  | left
  | right
  | other
deriving DecidableEq, Repr

/-- `handleDirectionalJump(key)` (lines 2231-2266): grounded-only; the
chosen camera-relative horizontal direction at `jumpPower`, vertical
velocity at `1.5 * jumpPower`, and grounded cleared (cleared even for an
unrecognized key, per line 2265). -/
def handleDirectionalJump (s c : ℚ) (key : JumpKey) (p : PlayerState) :
    PlayerState :=
  if !p.isOnGround then p
  else
    let jp := p.jumpPower
    let p' : PlayerState :=
      match key with
      | .up => { p with velocity := ⟨-s * jp, jp * (3/2), -c * jp⟩ }
      | .down => { p with velocity := ⟨s * jp, jp * (3/2), c * jp⟩ }
      | .left => { p with velocity := ⟨-c * jp, jp * (3/2), s * jp⟩ }
      | .right => { p with velocity := ⟨c * jp, jp * (3/2), -s * jp⟩ }
      | .other => p
    { p' with isOnGround := false }

/-- Squared horizontal distance, standing in for the `Math.sqrt` distances
of the monster controller. -/
def dist2 (ax az bx bz : ℚ) : ℚ :=
  (ax - bx)^2 + (az - bz)^2

/-- The guardian fields of a monster's `userData` read by the targeting
logic of `updateMonsters` (lines 518-634), plus its horizontal position. -/
structure GuardianData where
  mx : ℚ
  mz : ℚ
  aggressiveMode : Bool
  aggressiveModeEndTime : ℚ
  guardPosition : Option (ℚ × ℚ)
deriving DecidableEq, Repr

/-- The outcome of one guardian targeting step: the updated aggro state
and the movement target for the tick. -/
structure GuardOut where
  aggressiveMode : Bool
  aggressiveModeEndTime : ℚ
  targetX : ℚ
  targetZ : ℚ
  shouldMove : Bool
deriving DecidableEq, Repr

/-- The guardian branch of `updateMonsters` (lines 518-634), entered for a
guardian with an uncollected guarded coin: end-of-aggro check, aggro
chase, return-to-anchor, the alert/trigger radii around the coin, and the
idle patrol.  `(ra, rb)` are `(cos, sin)` of the random patrol angle and
`roll` the `Math.random() > 0.95` patrol-move draw; all distance
comparisons are embedded squared. -/
def guardianStep (m : GuardianData) (px pz cx cz now ra rb : ℚ)
    (roll : Bool) : GuardOut :=
  let pcoin2 := dist2 cx cz px pz
  let ended := m.aggressiveMode ∧ m.aggressiveModeEndTime > 0 ∧
    (now ≥ m.aggressiveModeEndTime ∨ pcoin2 > 40^2)
  let aggro : Bool := if ended then false else m.aggressiveMode
  let endT : ℚ := if ended then 0 else m.aggressiveModeEndTime
  let mcoin2 := dist2 cx cz m.mx m.mz
  let guardRadius : ℚ := 6
  let farFromGuard : Bool :=
    match m.guardPosition with
    | some g => decide (dist2 g.1 g.2 m.mx m.mz > guardRadius^2)
    | none => false
  if aggro then ⟨aggro, endT, px, pz, true⟩
  else if ended ∨ farFromGuard then
    match m.guardPosition with
    | some g => ⟨aggro, endT, g.1, g.2, true⟩
    | none => ⟨aggro, endT, cx, cz, true⟩
  else if pcoin2 < 15^2 then
    let trigger := pcoin2 < 8^2 ∧ aggro = false
    let aggro : Bool := if trigger then true else aggro
    let endT : ℚ := if trigger then now + 20 else endT
    if mcoin2 < (guardRadius * 2)^2 then ⟨aggro, endT, px, pz, true⟩
    else ⟨aggro, endT, cx, cz, true⟩
  else
    match m.guardPosition with
    | some g =>
      if dist2 g.1 g.2 m.mx m.mz > 1 then ⟨aggro, endT, g.1, g.2, true⟩
      else if mcoin2 > guardRadius^2 then ⟨aggro, endT, cx, cz, true⟩
      else if mcoin2 < (guardRadius * (1/2))^2 then
        ⟨aggro, endT, cx + ra * (guardRadius * (7/10)),
          cz + rb * (guardRadius * (7/10)), roll⟩
      else ⟨aggro, endT, m.mx, m.mz, false⟩
    | none =>
      if mcoin2 > guardRadius^2 then ⟨aggro, endT, cx, cz, true⟩
      else if mcoin2 < (guardRadius * (1/2))^2 then
        ⟨aggro, endT, cx + ra * (guardRadius * (7/10)),
          cz + rb * (guardRadius * (7/10)), roll⟩
      else ⟨aggro, endT, m.mx, m.mz, false⟩

/-- The combat fields of a monster touched by a player attack
(lines 860-891). -/
structure MonsterCombat where
  health : ℚ
  isGuardian : Bool
  aggressiveMode : Bool
  aggressiveModeEndTime : ℚ
deriving DecidableEq, Repr

/-- The per-monster effect of `attackMonsters()` (lines 869-878): within
attack range the monster loses `attackDamage` health, and a guardian
enters aggressive mode for 20 seconds. -/
def attackMonster (m : MonsterCombat) (px py pz mx my mz range damage now : ℚ) :
    MonsterCombat :=
  if distSq3 px py pz mx my mz ≤ range^2 then
    { health := m.health - damage,
      isGuardian := m.isGuardian,
      aggressiveMode := if m.isGuardian then true else m.aggressiveMode,
      aggressiveModeEndTime := if m.isGuardian then now + 20
        else m.aggressiveModeEndTime }
  else m

/-! Concrete fixtures: the player body of `createPlayer` (size
0.8 x 2 x 0.8, lines 183-190), generated terrain blocks in the shape
produced by `createWorldLayer` (lines 204-227), and small worlds used to
instantiate the theorems. -/

/-- The player collision box: half-extents 0.4, 1, 0.4. -/
def playerBodyQ : Body :=
  { minX := -2/5, maxX := 2/5, minY := -1, maxY := 1, minZ := -2/5, maxZ := 2/5 }

/-- A generated terrain block: the unit cube of `createWorldLayer` centered
at `(x, layerY - 1/2, z)` with top face at `layerY`. -/
def genBlock (x z layerY : ℚ) : BlockData :=
  { isBlock := true, isVoid := false, visible := true,
    minX := x - 1/2, maxX := x + 1/2,
    minY := layerY - 1, maxY := layerY,
    minZ := z - 1/2, maxZ := z + 1/2,
    worldLayer := some layerY, isPlaced := false,
    posX := x, posY := layerY - 1/2, posZ := z }

/-- Two stacked layers of ground under the origin, as in `createWorld`. -/
def wTwoLayers : List BlockData :=
  [genBlock 0 0 0, genBlock 0 0 (-50)]

/-- A wide slab with top face at height 0 (a platform record, as produced
by the platform generator with explicit extents). -/
def slabA : BlockData :=
  { isBlock := true, isVoid := false, visible := true,
    minX := -10, maxX := 10, minY := -1, maxY := 0,
    minZ := -10, maxZ := 10,
    worldLayer := some 0, isPlaced := false,
    posX := 0, posY := -1/2, posZ := 0 }

/-- A slightly raised neighbouring platform with top face at `h`. -/
def raisedSlab (h : ℚ) : BlockData :=
  { isBlock := true, isVoid := false, visible := true,
    minX := 1, maxX := 2, minY := -1, maxY := h,
    minZ := -2, maxZ := 2,
    worldLayer := some 0, isPlaced := false,
    posX := 3/2, posY := (h - 1)/2, posZ := 0 }

/-- A grounded, stationary player standing on `slabA` (feet 0.1 above the
top face, as the landing code places them). -/
def pStand : PlayerState :=
  { position := ⟨0, 11/10, 0⟩, velocity := ⟨0, 0, 0⟩,
    isOnGround := true, isStuckInVoid := false, hasVoidEscapePowerup := false,
    moveSpeed := 1/10, jumpPower := 3/10, gravity := -1/50 }

/-- Only the backward movement key held. -/
def keysDown : Keys :=
  { up := false, down := true, left := false, right := false, shift := false }

/-- No keys held. -/
def keysNone : Keys :=
  { up := false, down := false, left := false, right := false, shift := false }

/-- A world whose single block at the origin cell has been broken. -/
def wVoid : List BlockData :=
  [breakBlock (genBlock 0 0 0)]

/-- A player standing inside the void cell of `wVoid`. -/
def pInVoid : PlayerState :=
  { position := ⟨0, 1/2, 0⟩, velocity := ⟨1/10, 1/10, 1/10⟩,
    isOnGround := false, isStuckInVoid := false, hasVoidEscapePowerup := false,
    moveSpeed := 1/10, jumpPower := 3/10, gravity := -1/50 }

/-- The same trapped player holding a void-escape charge. -/
def pEscape : PlayerState :=
  { pInVoid with hasVoidEscapePowerup := true }

/-- A block in the Void state, as `breakBlock` leaves it: no longer a real
block, flagged void. -/
def isVoidState (b : BlockData) : Prop :=
  b.isBlock = false ∧ b.isVoid = true

/-- The slab world with the raised neighbour at height `h`. -/
def wStep (h : ℚ) : List BlockData :=
  [slabA, raisedSlab h]

/-- The world after breaking the origin cell and re-placing a block into
it: the void record persists, the placed block is appended (the in-place
mutation of `breakBlock` plus the `worldBlocks.push` of `placeBlock`). -/
def wRebuilt : List BlockData :=
  [breakBlock (genBlock 0 0 0), mkPlacedBlock 0 (-1/2) 0]

/-- A guardian in aggro mode about to expire, anchored at (1, 2). -/
def mAggro : GuardianData :=
  { mx := 5, mz := 5, aggressiveMode := true, aggressiveModeEndTime := 5,
    guardPosition := some (1, 2) }

/-! Theorems. -/

/-- C1 counterexample: with ground present on the layers below the origin,
a ground query from the sky band (`referenceY = 3 > 2`) still answers
`none` (open air) — it does not redirect to the lower layer, even though
`getNextWorldLayerBelow` identifies that layer and the per-layer query
finds its ground. -/
theorem skyBand_groundHeight_none_ce :
    getGroundHeight wTwoLayers playerBodyQ 0 0 3 false = none ∧
    getNextWorldLayerBelow [0, -50] 3 = 0 ∧
    getGroundHeightOnLayer wTwoLayers playerBodyQ 0 0 0 = 0 := by
  refine ⟨?_, ?_, ?_⟩
  · norm_num [getGroundHeight, isInBlueSky, FALL_THROUGH_HEIGHT]
  · norm_num [getNextWorldLayerBelow, sortDesc, insertDesc]
  · norm_num [getGroundHeightOnLayer, wTwoLayers, genBlock, layerStep,
      overXZ, playerBodyQ]

/-- C1 (amended): whenever the reference height lies in the sky band,
`getGroundHeight` reports the point as over open air (`none`), for every
world, body, position and step flag; the redirect to the next lower layer
is performed by the callers, not by this query. -/
theorem skyBand_groundHeight_none (blocks : List BlockData) (body : Body)
    (x z refY : ℚ) (allowStepUp : Bool)
    (h : FALL_THROUGH_HEIGHT < refY) :
    getGroundHeight blocks body x z refY allowStepUp = none := by
  simp [getGroundHeight, isInBlueSky, h]

/-- C1 witness: the amended theorem applied at reference height 3 over the
two-layer world. -/
theorem skyBand_groundHeight_none_w :
    FALL_THROUGH_HEIGHT < (3 : ℚ) ∧
    getGroundHeight wTwoLayers playerBodyQ 0 0 3 false = none :=
  ⟨by norm_num [FALL_THROUGH_HEIGHT],
    skyBand_groundHeight_none wTwoLayers playerBodyQ 0 0 3 false
      (by norm_num [FALL_THROUGH_HEIGHT])⟩

/-- C3: a player overlapping a void block while holding no escape charge
has all three velocity components forced to zero and position left
untouched by the tick, whatever keys are held and whatever the camera
angle. -/
theorem voidTrap_freeze (blocks : List BlockData) (layers : List ℚ)
    (body : Body) (keys : Keys) (s c : ℚ) (p : PlayerState)
    (hv : checkIfPlayerInVoid blocks body p.position = true)
    (hnp : p.hasVoidEscapePowerup = false) :
    (updatePlayer blocks layers body keys s c p).velocity = ⟨0, 0, 0⟩ ∧
    (updatePlayer blocks layers body keys s c p).position = p.position := by
  simp [updatePlayer, hv, hnp]

/-- C3 witness: the freeze theorem applied to a player inside the broken
origin cell with all movement keys held. -/
theorem voidTrap_freeze_w :
    checkIfPlayerInVoid wVoid playerBodyQ pInVoid.position = true ∧
    (updatePlayer wVoid [0] playerBodyQ
        { up := true, down := true, left := true, right := true, shift := true }
        1 0 pInVoid).velocity = ⟨0, 0, 0⟩ :=
  ⟨by norm_num [checkIfPlayerInVoid, wVoid, breakBlock, genBlock, overlapsBox,
      playerBodyQ, pInVoid],
    (voidTrap_freeze wVoid [0] playerBodyQ
      { up := true, down := true, left := true, right := true, shift := true }
      1 0 pInVoid
      (by norm_num [checkIfPlayerInVoid, wVoid, breakBlock, genBlock,
        overlapsBox, playerBodyQ, pInVoid])
      (by norm_num [pInVoid])).1⟩

/-- Folding over a filtered list agrees with folding over the whole list
when the step function ignores every filtered-out element. -/
theorem foldl_skip_filter {α β : Type} (f : β → α → β) (q : α → Bool)
    (h : ∀ acc a, q a = false → f acc a = acc) :
    ∀ (l : List α) (acc : β), (l.filter q).foldl f acc = l.foldl f acc := by
  intro l
  induction l with
  | nil => intro acc; rfl
  | cons a t ih =>
    intro acc
    by_cases hq : q a = true
    · simp only [List.filter_cons, hq, if_true, List.foldl_cons]
      exact ih (f acc a)
    · have hq' : q a = false := by simpa using hq
      simp only [List.filter_cons, hq', Bool.false_eq_true, if_false,
        List.foldl_cons, h acc a hq']
      exact ih acc

/-- The ground-height accumulator ignores void blocks. -/
theorem groundStep_void (body : Body) (x z cy : ℚ) (asu : Bool)
    (acc : Option ℚ) (b : BlockData) (hb : b.isVoid = true) :
    groundStep body x z cy asu acc b = acc := by
  simp [groundStep, collidableBlock, hb]

/-- The ground-height accumulator ignores blocks topping into the sky
band. -/
theorem groundStep_sky (body : Body) (x z cy : ℚ) (asu : Bool)
    (acc : Option ℚ) (b : BlockData) (hb : ¬b.maxY ≤ FALL_THROUGH_HEIGHT) :
    groundStep body x z cy asu acc b = acc := by
  simp [groundStep, collidableBlock, hb]

/-- The mining accumulator only ever stores mineable blocks. -/
theorem mineFold_mineable (sx sy sz cx cy cz : ℚ) :
    ∀ (l : List BlockData) (acc : Option (BlockData × ℚ)),
      (∀ pr : BlockData × ℚ, acc = some pr → mineable pr.1 = true) →
      ∀ pr : BlockData × ℚ,
        l.foldl (mineStep sx sy sz cx cy cz) acc = some pr →
        mineable pr.1 = true := by
  intro l
  induction l with
  | nil => intro acc hacc pr h; exact hacc pr h
  | cons a t ih =>
    intro acc hacc pr h
    refine ih (mineStep sx sy sz cx cy cz acc a) ?_ pr h
    intro pr' hpr'
    unfold mineStep at hpr'
    by_cases hcond : (mineable a && containsPoint a cx cy cz) = true
    · have hma : mineable a = true := (Bool.and_eq_true _ _ |>.mp hcond).1
      rw [if_pos hcond] at hpr'
      cases acc with
      | none =>
        dsimp only at hpr'
        simp only [Option.some.injEq] at hpr'
        rw [← hpr']
        exact hma
      | some prev =>
        obtain ⟨bb, bd⟩ := prev
        dsimp only at hpr'
        by_cases hd : distSq3 sx sy sz ((a.minX + a.maxX) / 2)
            ((a.minY + a.maxY) / 2) ((a.minZ + a.maxZ) / 2) < bd
        · rw [if_pos hd] at hpr'
          simp only [Option.some.injEq] at hpr'
          rw [← hpr']
          exact hma
        · rw [if_neg hd] at hpr'
          exact hacc pr' hpr'
    · rw [if_neg hcond] at hpr'
      exact hacc pr' hpr'

/-- A hit of the per-point mining scan is a mineable block. -/
theorem closestAtPoint_mineable (blocks : List BlockData)
    (sx sy sz cx cy cz : ℚ) (b : BlockData)
    (h : closestAtPoint blocks sx sy sz cx cy cz = some b) :
    mineable b = true := by
  unfold closestAtPoint at h
  cases hf : blocks.foldl (mineStep sx sy sz cx cy cz) none with
  | none => rw [hf] at h; exact Option.noConfusion h
  | some pr =>
    rw [hf] at h
    have hb : pr.1 = b := Option.some.inj h
    rw [← hb]
    exact mineFold_mineable sx sy sz cx cy cz blocks none
      (by intro pr hpr; exact Option.noConfusion hpr) pr hf

/-- A hit of the full mining ray scan is a mineable block. -/
theorem rayScan_mineable (blocks : List BlockData) (sx sy sz dx dy dz : ℚ) :
    ∀ (ds : List ℚ) (b : BlockData),
      rayScan blocks sx sy sz dx dy dz ds = some b → mineable b = true := by
  intro ds
  induction ds with
  | nil => intro b h; simp [rayScan] at h
  | cons d rest ih =>
    intro b h
    unfold rayScan at h
    cases hc : closestAtPoint blocks sx sy sz (sx + dx * d) (sy + dy * d)
        (sz + dz * d) with
    | some bb =>
      rw [hc] at h
      simp only [Option.some.injEq] at h
      rw [← h]
      exact closestAtPoint_mineable blocks sx sy sz _ _ _ bb hc
    | none =>
      rw [hc] at h
      exact ih b h

/-- C4: no query ever returns a void block: `checkCollision` never reports
one, `getGroundHeight` computes the same answer with every void block
deleted from the world (no void top is ever a candidate surface), and
`getTargetBlock` never selects one as the mining target — for every world,
body, position, reference height, ray and range. -/
theorem void_blocks_unqueried (blocks : List BlockData) (body : Body)
    (x y z qx qz cy : ℚ) (asu : Bool) (sx sy sz dx dy dz range : ℚ) :
    ((checkCollision blocks body x y z).all fun b => !b.isVoid) = true ∧
    getGroundHeight blocks body qx qz cy asu
      = getGroundHeight (blocks.filter fun b => !b.isVoid) body qx qz cy asu ∧
    ((getTargetBlock blocks sx sy sz dx dy dz range).all fun b => !b.isVoid) = true := by
  refine ⟨?_, ?_, ?_⟩
  · unfold checkCollision
    by_cases hsky : isInBlueSky y = true
    · simp [hsky]
    · simp only [hsky, Bool.false_eq_true, if_false]
      cases hf : blocks.find? (fun b => collidableBlock b && overlapsBox body x y z b) with
      | none => rfl
      | some b =>
        have hp := List.find?_some hf
        have hcb : collidableBlock b = true := (Bool.and_eq_true _ _ |>.mp hp).1
        have : b.isVoid = false := by
          simp only [collidableBlock, Bool.and_eq_true, Bool.not_eq_true'] at hcb
          exact hcb.1.1.2
        simp [Option.all, this]
  · unfold getGroundHeight
    by_cases hsky : isInBlueSky cy = true
    · simp [hsky]
    · simp only [hsky, Bool.false_eq_true, if_false]
      refine (foldl_skip_filter _ _ ?_ blocks none).symm
      intro acc b hb
      have : b.isVoid = true := by simpa using hb
      exact groundStep_void body qx qz cy asu acc b this
  · unfold getTargetBlock
    cases hr : rayScan blocks sx sy sz dx dy dz (marchDistances range) with
    | none => rfl
    | some b =>
      have hm := rayScan_mineable blocks sx sy sz dx dy dz (marchDistances range) b hr
      have : b.isVoid = false := by
        simp only [mineable, Bool.and_eq_true, Bool.not_eq_true'] at hm
        exact hm.1.2
      simp [Option.all, this]

/-- One step of the per-layer ground fold never lowers the accumulator. -/
theorem layerStep_ge (body : Body) (qx qz L acc : ℚ) (b : BlockData) :
    acc ≤ layerStep body qx qz L acc b := by
  unfold layerStep
  split
  · split
    · next hgt => exact le_of_lt hgt
    · exact le_refl acc
  · exact le_refl acc

/-- The per-layer ground fold never drops below its starting value. -/
theorem layerFold_ge_acc (body : Body) (qx qz L : ℚ) :
    ∀ (l : List BlockData) (acc : ℚ),
      acc ≤ l.foldl (layerStep body qx qz L) acc := by
  intro l
  induction l with
  | nil => intro acc; exact le_refl acc
  | cons a t ih =>
    intro acc
    exact le_trans (layerStep_ge body qx qz L acc a) (ih (layerStep body qx qz L acc a))

/-- The per-layer ground fold dominates the top of every participating
member of the list. -/
theorem layerFold_ge_mem (body : Body) (qx qz L : ℚ) :
    ∀ (l : List BlockData) (acc : ℚ) (b : BlockData), b ∈ l →
      ((b.isBlock && !b.isVoid && b.visible)
        && (decide (b.worldLayer = some L) || decide (b.worldLayer = none))
        && overXZ body qx qz b) = true →
      b.maxY ≤ l.foldl (layerStep body qx qz L) acc := by
  intro l
  induction l with
  | nil => intro acc b hmem; exact absurd hmem (List.not_mem_nil b)
  | cons a t ih =>
    intro acc b hmem hel
    rcases List.mem_cons.mp hmem with heq | hmem'
    · subst heq
      refine le_trans ?_ (layerFold_ge_acc body qx qz L t (layerStep body qx qz L acc b))
      unfold layerStep
      rw [if_pos hel]
      split
      · exact le_refl _
      · next hle => exact le_of_not_lt hle
    · exact ih (layerStep body qx qz L acc a) b hmem' hel

/-- C10: every block whose top face reaches above the sky threshold is
invisible to the player's collision query and to the player's ground
query (whatever the player position), while the per-layer ground query
used by the sky-band falling path applies no such height filter: any
participating block overlapping the queried column bounds that query
from below, however high its top face. -/
theorem skyBlocks_excluded (blocks : List BlockData) (body : Body)
    (x y z qx qz cy L : ℚ) (asu : Bool) (b : BlockData) :
    ((checkCollision blocks body x y z).all
      fun bb => decide (bb.maxY ≤ FALL_THROUGH_HEIGHT)) = true ∧
    getGroundHeight blocks body qx qz cy asu
      = getGroundHeight
          (blocks.filter fun bb => decide (bb.maxY ≤ FALL_THROUGH_HEIGHT))
          body qx qz cy asu ∧
    (b ∈ blocks → b.isBlock = true → b.isVoid = false → b.visible = true →
      (b.worldLayer = some L ∨ b.worldLayer = none) →
      overXZ body qx qz b = true →
      b.maxY ≤ getGroundHeightOnLayer blocks body qx qz L) := by
  refine ⟨?_, ?_, ?_⟩
  · unfold checkCollision
    by_cases hsky : isInBlueSky y = true
    · simp [hsky]
    · simp only [hsky, Bool.false_eq_true, if_false]
      cases hf : blocks.find? (fun bb => collidableBlock bb && overlapsBox body x y z bb) with
      | none => rfl
      | some bb =>
        have hp := List.find?_some hf
        have hcb : collidableBlock bb = true := (Bool.and_eq_true _ _ |>.mp hp).1
        have : decide (bb.maxY ≤ FALL_THROUGH_HEIGHT) = true := by
          simp only [collidableBlock, Bool.and_eq_true] at hcb
          exact hcb.2
        simp [Option.all, this]
  · unfold getGroundHeight
    by_cases hsky : isInBlueSky cy = true
    · simp [hsky]
    · simp only [hsky, Bool.false_eq_true, if_false]
      refine (foldl_skip_filter _ _ ?_ blocks none).symm
      intro acc bb hb
      have : ¬bb.maxY ≤ FALL_THROUGH_HEIGHT := by simpa using hb
      exact groundStep_sky body qx qz cy asu acc bb this
  · intro hmem hib hiv hvis hwl hover
    refine layerFold_ge_mem body qx qz L blocks L b hmem ?_
    rcases hwl with hwl | hwl <;>
      simp [hib, hiv, hvis, hwl, hover]

/-- C10 witness: a terrain block whose top face (height 5) lies in the sky
band still bounds the per-layer ground query on its layer. -/
theorem skyBlocks_excluded_w :
    (genBlock 0 0 5).maxY ≤ getGroundHeightOnLayer [genBlock 0 0 5] playerBodyQ 0 0 5 :=
  (skyBlocks_excluded [genBlock 0 0 5] playerBodyQ 0 0 0 0 0 0 5 false
      (genBlock 0 0 5)).2.2
    (by simp) (by norm_num [genBlock]) (by norm_num [genBlock])
    (by norm_num [genBlock]) (Or.inl (by norm_num [genBlock]))
    (by norm_num [overXZ, genBlock, playerBodyQ])

/-- Writing back the value already stored at an index leaves a list
unchanged. -/
theorem set_get?_self {α : Type} :
    ∀ (w : List α) (i : ℕ) (b : α), w.get? i = some b → w.set i b = w := by
  intro w
  induction w with
  | nil => intro i b h; simp at h
  | cons a t ih =>
    intro i b h
    cases i with
    | zero =>
      have : a = b := by simpa using h
      simp [List.set, this]
    | succ i =>
      have ht : t.get? i = some b := by simpa using h
      simp [List.set, ih i b ht]

/-- C8: breaking transitions a real (solid or placed) block to the void
state, changing nothing but the two state flags; the world list keeps its
length and every other entry; and breaking an already-void block changes
nothing at all. -/
theorem breakBlock_transition (b : BlockData) (w : List BlockData) (i : ℕ) :
    (b.isBlock = true →
      breakBlock b = { b with isBlock := false, isVoid := true }) ∧
    (isVoidState b → breakBlock b = b) ∧
    (worldBreak w i).length = w.length ∧
    (∀ j, j ≠ i → (worldBreak w i).get? j = w.get? j) ∧
    (w.get? i = some b → isVoidState b → worldBreak w i = w) := by
  refine ⟨?_, ?_, ?_, ?_, ?_⟩
  · intro hb
    simp [breakBlock, hb]
  · intro hv
    simp [breakBlock, hv.1]
  · unfold worldBreak
    cases hg : w.get? i with
    | none => rfl
    | some bb => exact w.length_set i (breakBlock bb)
  · intro j hj
    unfold worldBreak
    cases hg : w.get? i with
    | none => rfl
    | some bb =>
      simp only [List.get?_eq_getElem?]
      exact List.getElem?_set_ne (Ne.symm hj)
  · intro hg hv
    unfold worldBreak
    rw [hg]
    have hnoop : breakBlock b = b := by simp [breakBlock, hv.1]
    dsimp only
    rw [hnoop]
    exact set_get?_self w i b hg

/-- C8 witness: the transition theorem applied to the origin terrain
block, and the no-op clause applied to its broken form. -/
theorem breakBlock_transition_w :
    breakBlock (genBlock 0 0 0)
      = { genBlock 0 0 0 with isBlock := false, isVoid := true } ∧
    breakBlock (breakBlock (genBlock 0 0 0)) = breakBlock (genBlock 0 0 0) ∧
    (worldBreak [genBlock 0 0 0] 0).length = 1 :=
  ⟨(breakBlock_transition (genBlock 0 0 0) [genBlock 0 0 0] 0).1
      (by norm_num [genBlock]),
    (breakBlock_transition (breakBlock (genBlock 0 0 0)) [genBlock 0 0 0] 0).2.1
      (by norm_num [isVoidState, breakBlock, genBlock]),
    (breakBlock_transition (genBlock 0 0 0) [genBlock 0 0 0] 0).2.2.1⟩

/-- C6: the directional jump leaves a non-grounded player untouched; for
a grounded player and a directional key it gives the horizontal velocity
squared magnitude `jumpPower^2` (the camera direction being a unit
vector), vertical velocity `1.5 * jumpPower`, and clears grounded — with
the exact camera-relative velocity vector listed per key. -/
theorem directionalJump_correct (s c : ℚ) (key : JumpKey) (p : PlayerState)
    (hsc : s^2 + c^2 = 1) :
    (p.isOnGround = false → handleDirectionalJump s c key p = p) ∧
    (p.isOnGround = true → key ≠ JumpKey.other →
      ((handleDirectionalJump s c key p).velocity.x)^2 +
        ((handleDirectionalJump s c key p).velocity.z)^2 = p.jumpPower^2 ∧
      (handleDirectionalJump s c key p).velocity.y = p.jumpPower * (3/2) ∧
      (handleDirectionalJump s c key p).isOnGround = false) ∧
    (p.isOnGround = true → key = JumpKey.up →
      (handleDirectionalJump s c key p).velocity
        = ⟨-s * p.jumpPower, p.jumpPower * (3/2), -c * p.jumpPower⟩) ∧
    (p.isOnGround = true → key = JumpKey.down →
      (handleDirectionalJump s c key p).velocity
        = ⟨s * p.jumpPower, p.jumpPower * (3/2), c * p.jumpPower⟩) ∧
    (p.isOnGround = true → key = JumpKey.left →
      (handleDirectionalJump s c key p).velocity
        = ⟨-c * p.jumpPower, p.jumpPower * (3/2), s * p.jumpPower⟩) ∧
    (p.isOnGround = true → key = JumpKey.right →
      (handleDirectionalJump s c key p).velocity
        = ⟨c * p.jumpPower, p.jumpPower * (3/2), -s * p.jumpPower⟩) := by
  refine ⟨?_, ?_, ?_, ?_, ?_, ?_⟩
  · intro hng
    simp [handleDirectionalJump, hng]
  · intro hg hk
    cases key with
    | other => exact absurd rfl hk
    | up =>
      refine ⟨?_, by simp [handleDirectionalJump, hg], by simp [handleDirectionalJump, hg]⟩
      simp only [handleDirectionalJump, hg, Bool.not_true, Bool.false_eq_true, if_false]
      linear_combination p.jumpPower^2 * hsc
    | down =>
      refine ⟨?_, by simp [handleDirectionalJump, hg], by simp [handleDirectionalJump, hg]⟩
      simp only [handleDirectionalJump, hg, Bool.not_true, Bool.false_eq_true, if_false]
      linear_combination p.jumpPower^2 * hsc
    | left =>
      refine ⟨?_, by simp [handleDirectionalJump, hg], by simp [handleDirectionalJump, hg]⟩
      simp only [handleDirectionalJump, hg, Bool.not_true, Bool.false_eq_true, if_false]
      linear_combination p.jumpPower^2 * hsc
    | right =>
      refine ⟨?_, by simp [handleDirectionalJump, hg], by simp [handleDirectionalJump, hg]⟩
      simp only [handleDirectionalJump, hg, Bool.not_true, Bool.false_eq_true, if_false]
      linear_combination p.jumpPower^2 * hsc
  · intro hg hk
    subst hk
    simp [handleDirectionalJump, hg]
  · intro hg hk
    subst hk
    simp [handleDirectionalJump, hg]
  · intro hg hk
    subst hk
    simp [handleDirectionalJump, hg]
  · intro hg hk
    subst hk
    simp [handleDirectionalJump, hg]

/-- C6 witness: the jump theorem at unit camera direction (0, 1), forward
key, on the grounded standing player. -/
theorem directionalJump_correct_w :
    ((handleDirectionalJump 0 1 JumpKey.up pStand).velocity.x)^2 +
      ((handleDirectionalJump 0 1 JumpKey.up pStand).velocity.z)^2
      = pStand.jumpPower^2 ∧
    (handleDirectionalJump 0 1 JumpKey.up pStand).isOnGround = false := by
  have r := (directionalJump_correct 0 1 JumpKey.up pStand (by norm_num)).2.1
    (by norm_num [pStand]) (by simp)
  exact ⟨r.1, r.2.2⟩

/-- The movement pipeline never touches the void-trap flag or the escape
charge. -/
theorem movePhase_flags (blocks : List BlockData) (layers : List ℚ)
    (body : Body) (keys : Keys) (s c : ℚ) (p : PlayerState) :
    (movePhase blocks layers body keys s c p).isStuckInVoid = p.isStuckInVoid ∧
    (movePhase blocks layers body keys s c p).hasVoidEscapePowerup
      = p.hasVoidEscapePowerup := by
  constructor <;>
  · unfold movePhase
    split
    · unfold skyBranch
      split <;> rfl
    · rfl

/-- C7: a trapped player holding the escape charge who issues any
directional (or shift) input has the charge consumed and the trap flag
cleared, and the tick then runs the normal movement pipeline on that
same-tick state. -/
theorem voidEscape_consumes (blocks : List BlockData) (layers : List ℚ)
    (body : Body) (keys : Keys) (s c : ℚ) (p : PlayerState)
    (hv : checkIfPlayerInVoid blocks body p.position = true)
    (hp : p.hasVoidEscapePowerup = true)
    (hk : anyMoveKey keys = true) :
    updatePlayer blocks layers body keys s c p
      = movePhase blocks layers body keys s c
          { p with isStuckInVoid := false, hasVoidEscapePowerup := false } ∧
    (updatePlayer blocks layers body keys s c p).isStuckInVoid = false ∧
    (updatePlayer blocks layers body keys s c p).hasVoidEscapePowerup = false := by
  have h1 : updatePlayer blocks layers body keys s c p
      = movePhase blocks layers body keys s c
          { p with isStuckInVoid := false, hasVoidEscapePowerup := false } := by
    unfold updatePlayer
    simp [hv, hp, hk]
  refine ⟨h1, ?_, ?_⟩
  · rw [h1]
    exact (movePhase_flags blocks layers body keys s c _).1
  · rw [h1]
    exact (movePhase_flags blocks layers body keys s c _).2

/-- C7 witness: the escape theorem applied to the charged player in the
broken origin cell with the backward key held. -/
theorem voidEscape_consumes_w :
    (updatePlayer wVoid [0] playerBodyQ keysDown 10 0 pEscape).hasVoidEscapePowerup
      = false ∧
    (updatePlayer wVoid [0] playerBodyQ keysDown 10 0 pEscape).isStuckInVoid
      = false := by
  have r := voidEscape_consumes wVoid [0] playerBodyQ keysDown 10 0 pEscape
    (by norm_num [checkIfPlayerInVoid, wVoid, breakBlock, genBlock, overlapsBox,
      playerBodyQ, pEscape, pInVoid])
    (by norm_num [pEscape, pInVoid])
    (by norm_num [anyMoveKey, keysDown])
  exact ⟨r.2.2, r.2.1⟩

/-- In the grounded pipeline, when the anti-step-up comparison finds the
destination ground more than 0.01 above the current ground for a
grounded, near-stationary player, the horizontal displacement is dropped
and horizontal velocity zeroed. -/
theorem movePhaseGround_revert (blocks : List BlockData) (body : Body)
    (keys : Keys) (s c : ℚ) (p : PlayerState) (dg cg : ℚ)
    (hg : p.isOnGround = true)
    (hs1 : isInBlueSky p.position.y = false)
    (hs2 : isInBlueSky (p.position.y + p.velocity.y) = false)
    (hvy : |p.velocity.y| < 1/100)
    (hdest : getGroundHeight blocks body
        (proposedDest blocks body keys s c p).1.1
        (proposedDest blocks body keys s c p).1.2 p.position.y false = some dg)
    (hcur : getGroundHeight blocks body p.position.x p.position.z
        p.position.y false = some cg)
    (hgt : dg > cg + 1/100) :
    (movePhaseGround blocks body keys s c p).position.x = p.position.x ∧
    (movePhaseGround blocks body keys s c p).position.z = p.position.z ∧
    (movePhaseGround blocks body keys s c p).velocity.x = 0 ∧
    (movePhaseGround blocks body keys s c p).velocity.z = 0 := by
  have htv : tickVy p = p.velocity.y := by
    simp [tickVy, hs1, hg]
  unfold movePhaseGround
  simp only [htv, hs1, hs2, hdest, hcur, hg, Bool.not_false,
    true_and, and_true, hvy, hgt, if_true, gt_iff_lt]
  cases hcol : checkCollision blocks body p.position.x
      (p.position.y + p.velocity.y) p.position.z with
  | none => simp [hcol]
  | some b =>
    simp only [hcol]
    rcases lt_trichotomy p.velocity.y 0 with hlt | heq | hgt2
    · simp [hlt, not_lt.mpr (le_of_lt hlt)]
    · simp [heq]
    · simp [hgt2, not_lt.mpr (le_of_lt hgt2), ne_of_gt hgt2]

/-- C2 (amended): in a tick where the player is not void-overlapping, is
grounded and near-stationary (vertical speed under 0.01), stays outside
the sky band, and the ground height at the proposed horizontal
destination exceeds the ground height at the current position by more
than the 0.01 tolerance, the horizontal displacement is reverted and
horizontal velocity zeroed — even when the height difference is within
the step tolerance. -/
theorem antiExploit_revert (blocks : List BlockData) (layers : List ℚ)
    (body : Body) (keys : Keys) (s c : ℚ) (p : PlayerState) (dg cg : ℚ)
    (hnv : checkIfPlayerInVoid blocks body p.position = false)
    (hg : p.isOnGround = true)
    (hvy : |p.velocity.y| < 1/100)
    (hsky1 : p.position.y ≤ FALL_THROUGH_HEIGHT)
    (hsky2 : p.position.y + p.velocity.y ≤ FALL_THROUGH_HEIGHT)
    (hdest : getGroundHeight blocks body
        (proposedDest blocks body keys s c p).1.1
        (proposedDest blocks body keys s c p).1.2 p.position.y false = some dg)
    (hcur : getGroundHeight blocks body p.position.x p.position.z
        p.position.y false = some cg)
    (hgt : dg > cg + 1/100) :
    (updatePlayer blocks layers body keys s c p).position.x = p.position.x ∧
    (updatePlayer blocks layers body keys s c p).position.z = p.position.z ∧
    (updatePlayer blocks layers body keys s c p).velocity.x = 0 ∧
    (updatePlayer blocks layers body keys s c p).velocity.z = 0 := by
  have hs1 : isInBlueSky p.position.y = false := by
    simp only [isInBlueSky, decide_eq_false_iff_not, not_lt]
    exact hsky1
  have hs2 : isInBlueSky (p.position.y + p.velocity.y) = false := by
    simp only [isInBlueSky, decide_eq_false_iff_not, not_lt]
    exact hsky2
  have h0 : updatePlayer blocks layers body keys s c p
      = movePhase blocks layers body keys s c { p with isStuckInVoid := false } := by
    unfold updatePlayer
    simp [hnv]
  have htv : tickVy { p with isStuckInVoid := false } = p.velocity.y := by
    simp [tickVy, hs1, hg]
  have hm : movePhase blocks layers body keys s c { p with isStuckInVoid := false }
      = movePhaseGround blocks body keys s c { p with isStuckInVoid := false } := by
    unfold movePhase
    simp [htv, hs1, hs2]
  rw [h0, hm]
  exact movePhaseGround_revert blocks body keys s c
    { p with isStuckInVoid := false } dg cg hg hs1 hs2 hvy hdest hcur hgt

/-- C2 counterexample: a grounded, stationary player outside the sky band
walks (backward key, camera pair (10, 0)) toward ground strictly higher
than its current ground — by 1/200, within the 0.01 tolerance — and the
horizontal displacement is NOT reverted: the committed x moves from 0 to
9/10.  Strictly-higher destination ground alone does not trigger the
revert; only a difference above 0.01 does. -/
theorem antiExploit_epsilon_ce :
    pStand.isOnGround = true ∧
    |pStand.velocity.y| < 1/100 ∧
    isInBlueSky pStand.position.y = false ∧
    (proposedDest (wStep (1/200)) playerBodyQ keysDown 10 0 pStand).1.1 = 9/10 ∧
    (proposedDest (wStep (1/200)) playerBodyQ keysDown 10 0 pStand).1.2 = 0 ∧
    getGroundHeight (wStep (1/200)) playerBodyQ (9/10) 0 pStand.position.y false
      = some (1/200) ∧
    getGroundHeight (wStep (1/200)) playerBodyQ 0 0 pStand.position.y false
      = some 0 ∧
    (0 : ℚ) < 1/200 ∧
    (updatePlayer (wStep (1/200)) [0] playerBodyQ keysDown 10 0 pStand).position.x
      = 9/10 ∧
    pStand.position.x = 0 := by
  norm_num [updatePlayer, movePhase, movePhaseGround, skyBranch, proposedDest,
    frictionVel, horizInput, tickVy, axisResolve, checkCollision,
    collidableBlock, overlapsBox, overXZ, getGroundHeight, groundStep,
    isInBlueSky, FALL_THROUGH_HEIGHT, maxStepHeight, checkIfPlayerInVoid,
    anyMoveKey, keysDown, pStand, wStep, slabA, raisedSlab, playerBodyQ,
    List.foldl, List.find?, List.any]

/-- C2 witness: with the raised neighbour at height 1/20 (above the 0.01
tolerance) the same walk is reverted: committed x stays 0 and horizontal
velocity is zeroed. -/
theorem antiExploit_revert_w :
    (updatePlayer (wStep (1/20)) [0] playerBodyQ keysDown 10 0 pStand).position.x
      = pStand.position.x ∧
    (updatePlayer (wStep (1/20)) [0] playerBodyQ keysDown 10 0 pStand).velocity.x
      = 0 := by
  have r := antiExploit_revert (wStep (1/20)) [0] playerBodyQ keysDown 10 0
    pStand (1/20) 0
    (by norm_num [checkIfPlayerInVoid, wStep, slabA, raisedSlab, overlapsBox,
      playerBodyQ, pStand, List.any])
    (by norm_num [pStand])
    (by norm_num [pStand])
    (by norm_num [pStand, FALL_THROUGH_HEIGHT])
    (by norm_num [pStand, FALL_THROUGH_HEIGHT])
    (by norm_num [proposedDest, frictionVel, horizInput, tickVy, axisResolve,
      checkCollision, collidableBlock, overlapsBox, overXZ, getGroundHeight,
      groundStep, isInBlueSky, FALL_THROUGH_HEIGHT, maxStepHeight, keysDown,
      pStand, wStep, slabA, raisedSlab, playerBodyQ, List.foldl, List.find?])
    (by norm_num [getGroundHeight, groundStep, collidableBlock, overXZ,
      isInBlueSky, FALL_THROUGH_HEIGHT, maxStepHeight, pStand, wStep, slabA,
      raisedSlab, playerBodyQ, List.foldl])
    (by norm_num)
  exact ⟨r.1, r.2.2.1⟩

/-- C5 counterexample: after breaking the origin cell, placement there
succeeds (the void cell does not count as occupied), but the rebuilt
cell still triggers void-trap detection for an overlapping player while
the never-broken cell does not — the void record persists alongside the
placed block, so observable behaviour does differ beyond the placed tag. -/
theorem break_place_void_persists_ce :
    cellOccupied [breakBlock (genBlock 0 0 0)] 0 (-1/2) 0 = false ∧
    checkIfPlayerInVoid wRebuilt playerBodyQ ⟨0, 0, 0⟩ = true ∧
    checkIfPlayerInVoid [genBlock 0 0 0] playerBodyQ ⟨0, 0, 0⟩ = false := by
  norm_num [cellOccupied, checkIfPlayerInVoid, wRebuilt, breakBlock, genBlock,
    mkPlacedBlock, overlapsBox, playerBodyQ, List.any]

/-- C5 (amended): breaking a unit block at a grid cell and placing a
block back into that cell succeeds (the void does not occupy the cell)
and restores collision occupancy and ground height exactly as for the
never-broken block, the new block carrying the placed tag; but the void
record persists, so void-trap detection at the cell still fires for any
overlapping actor, unlike the never-broken cell. -/
theorem break_place_same_cell (b : BlockData) (body : Body) (x y z : ℚ)
    (hb : b.isBlock = true) (hv : b.isVoid = false) (hvis : b.visible = true)
    (hx1 : b.minX = x - 1/2) (hx2 : b.maxX = x + 1/2)
    (hy1 : b.minY = y - 1/2) (hy2 : b.maxY = y + 1/2)
    (hz1 : b.minZ = z - 1/2) (hz2 : b.maxZ = z + 1/2) :
    cellOccupied [breakBlock b] x y z = false ∧
    (∀ qx qy qz : ℚ,
      (checkCollision [breakBlock b, mkPlacedBlock x y z] body qx qy qz).isSome
        = (checkCollision [b] body qx qy qz).isSome) ∧
    (∀ qx qz cy : ℚ, ∀ asu : Bool,
      getGroundHeight [breakBlock b, mkPlacedBlock x y z] body qx qz cy asu
        = getGroundHeight [b] body qx qz cy asu) ∧
    (mkPlacedBlock x y z).isPlaced = true ∧
    (∀ q : V3, checkIfPlayerInVoid [breakBlock b, mkPlacedBlock x y z] body q
        = overlapsBox body q.x q.y q.z b) ∧
    (∀ q : V3, checkIfPlayerInVoid [b] body q = false) := by
  have hbb : breakBlock b = { b with isBlock := false, isVoid := true } := by
    simp [breakBlock, hb]
  refine ⟨?_, ?_, ?_, rfl, ?_, ?_⟩
  · simp [cellOccupied, hbb]
  · intro qx qy qz
    unfold checkCollision
    by_cases hsky : isInBlueSky qy = true
    · simp [hsky]
    · simp only [hsky, Bool.false_eq_true, if_false]
      simp only [List.find?, hbb, collidableBlock, mkPlacedBlock, overlapsBox,
        hb, hv, hvis, hx1, hx2, hy1, hy2, hz1, hz2, Bool.false_and,
        Bool.and_false, Bool.true_and, Bool.and_true, Bool.not_true,
        Bool.not_false]
      split
      · next heq => rw [heq]; rfl
      · next heq => rw [heq]
  · intro qx qz cy asu
    unfold getGroundHeight
    by_cases hsky : isInBlueSky cy = true
    · simp [hsky]
    · simp only [hsky, Bool.false_eq_true, if_false]
      simp [List.foldl, groundStep, hbb, collidableBlock, mkPlacedBlock,
        overXZ, hb, hv, hvis, hx1, hx2, hy1, hy2, hz1, hz2]
  · intro q
    simp [checkIfPlayerInVoid, List.any, hbb, mkPlacedBlock, overlapsBox,
      hvis, hx1, hx2, hy1, hy2, hz1, hz2]
  · intro q
    simp [checkIfPlayerInVoid, List.any, hv]

/-- C5 witness: the break-and-replace theorem applied to the origin
terrain block, with the ground query instantiated over the rebuilt cell. -/
theorem break_place_same_cell_w :
    cellOccupied [breakBlock (genBlock 0 0 0)] 0 (-1/2) 0 = false ∧
    getGroundHeight [breakBlock (genBlock 0 0 0), mkPlacedBlock 0 (-1/2) 0]
        playerBodyQ 0 0 (11/10) false
      = getGroundHeight [genBlock 0 0 0] playerBodyQ 0 0 (11/10) false := by
  have r := break_place_same_cell (genBlock 0 0 0) playerBodyQ 0 (-1/2) 0
    (by norm_num [genBlock]) (by norm_num [genBlock]) (by norm_num [genBlock])
    (by norm_num [genBlock]) (by norm_num [genBlock]) (by norm_num [genBlock])
    (by norm_num [genBlock]) (by norm_num [genBlock]) (by norm_num [genBlock])
  exact ⟨r.1, r.2.2.1 0 0 (11/10) false⟩

/-- C9: guardian aggro is entered by the targeting step only when the
player is within 8 of the guarded coin while the monster is within the
guard radius of its anchor (setting a 20-second timer), or by being
attacked in range; once active with a live timer it is cleared exactly on
a tick where the timer has elapsed or the player is more than 40 from the
coin, and on that tick the monster targets its guard anchor. -/
theorem guardian_aggro_lifecycle (m : GuardianData)
    (px pz cx cz now ra rb : ℚ) (roll : Bool) (g : ℚ × ℚ)
    (mc : MonsterCombat) (ax ay az bx bY bz range damage anow : ℚ)
    (hg : m.guardPosition = some g) :
    (m.aggressiveMode = false →
      (guardianStep m px pz cx cz now ra rb roll).aggressiveMode = true →
      dist2 cx cz px pz < 8^2 ∧ dist2 g.1 g.2 m.mx m.mz ≤ 6^2 ∧
      (guardianStep m px pz cx cz now ra rb roll).aggressiveModeEndTime
        = now + 20) ∧
    (mc.isGuardian = true → distSq3 ax ay az bx bY bz ≤ range^2 →
      (attackMonster mc ax ay az bx bY bz range damage anow).aggressiveMode
        = true ∧
      (attackMonster mc ax ay az bx bY bz range damage anow).aggressiveModeEndTime
        = anow + 20) ∧
    (m.aggressiveMode = true → m.aggressiveModeEndTime > 0 →
      ((guardianStep m px pz cx cz now ra rb roll).aggressiveMode = false ↔
        (now ≥ m.aggressiveModeEndTime ∨ dist2 cx cz px pz > 40^2)) ∧
      (now ≥ m.aggressiveModeEndTime ∨ dist2 cx cz px pz > 40^2 →
        (guardianStep m px pz cx cz now ra rb roll).targetX = g.1 ∧
        (guardianStep m px pz cx cz now ra rb roll).targetZ = g.2 ∧
        (guardianStep m px pz cx cz now ra rb roll).shouldMove = true ∧
        (guardianStep m px pz cx cz now ra rb roll).aggressiveModeEndTime = 0)) := by
  refine ⟨?_, ?_, ?_⟩
  · intro hna
    by_cases hfar : dist2 g.1 g.2 m.mx m.mz > 6^2
    · intro hstep
      have : (guardianStep m px pz cx cz now ra rb roll).aggressiveMode = false := by
        simp [guardianStep, hg, hna, hfar]
      rw [this] at hstep
      exact absurd hstep (by simp)
    · by_cases halert : dist2 cx cz px pz < 15^2
      · by_cases htrig : dist2 cx cz px pz < 8^2
        · intro _
          refine ⟨htrig, le_of_not_lt hfar, ?_⟩
          by_cases hchase : dist2 cx cz m.mx m.mz < (6 * 2)^2 <;>
            simp [guardianStep, hg, hna, hfar, halert, htrig, hchase]
        · intro hstep
          have : (guardianStep m px pz cx cz now ra rb roll).aggressiveMode = false := by
            by_cases hchase : dist2 cx cz m.mx m.mz < (6 * 2)^2 <;>
              simp [guardianStep, hg, hna, hfar, halert, htrig, hchase]
          rw [this] at hstep
          exact absurd hstep (by simp)
      · intro hstep
        have : (guardianStep m px pz cx cz now ra rb roll).aggressiveMode = false := by
          by_cases hret : dist2 g.1 g.2 m.mx m.mz > 1
          · simp [guardianStep, hg, hna, hfar, halert, hret]
          · by_cases hcoin : dist2 cx cz m.mx m.mz > 6^2
            · simp [guardianStep, hg, hna, hfar, halert, hret, hcoin]
            · simp [guardianStep, hg, hna, hfar, halert, hret, hcoin]
              try split <;> rfl
        rw [this] at hstep
        exact absurd hstep (by simp)
  · intro hmg hrange
    simp [attackMonster, hmg, hrange]
  · intro ha he
    by_cases hcond : now ≥ m.aggressiveModeEndTime ∨ dist2 cx cz px pz > 40^2
    · constructor
      · simp [guardianStep, hg, ha, he, hcond]
      · intro _
        simp [guardianStep, hg, ha, he, hcond]
    · constructor
      · simp [guardianStep, hg, ha, he, hcond]
      · intro hc
        exact absurd hc hcond

/-- C9 witness: the lifecycle theorem's expiry clause at a concrete
guardian whose timer (ending at 5) has elapsed at time 10: aggro is
cleared and the target is the anchor (1, 2). -/
theorem guardian_aggro_lifecycle_w :
    (guardianStep mAggro 0 0 0 0 10 1 0 false).aggressiveMode = false ∧
    (guardianStep mAggro 0 0 0 0 10 1 0 false).targetX = 1 ∧
    (guardianStep mAggro 0 0 0 0 10 1 0 false).targetZ = 2 := by
  have r := (guardian_aggro_lifecycle mAggro 0 0 0 0 10 1 0 false (1, 2)
    ⟨100, true, false, 0⟩ 0 0 0 0 0 0 1 1 3
    (by norm_num [mAggro])).2.2
    (by norm_num [mAggro]) (by norm_num [mAggro])
  have hc : (10 : ℚ) ≥ mAggro.aggressiveModeEndTime ∨
      dist2 0 0 0 0 > 40^2 := Or.inl (by norm_num [mAggro])
  have ht := r.2 hc
  exact ⟨r.1.mpr hc, ht.1, ht.2.1⟩

end BlockGame
